import Mathlib

/-!
Verification of the `sup-to-srt` PGS (Presentation Graphics Stream) subtitle
decoder.  The Rust sources (`pgs/src/wire.rs`, `pgs/src/lib.rs`,
`src/main.rs`) are shallowly embedded below: byte streams are `List Nat`
(each element a byte value below 256), machine integers are `Nat` (every
arithmetic operation of the source stays inside its machine range at the
places noted), fallible code returns `Except`, and `std::io::ErrorKind` is
the two-constructor `ErrorKind` (only `UnexpectedEof` and `InvalidData`
occur in the source).  Unbounded `loop`/iterator constructs are embedded as
structural recursion on an explicit fuel argument; the top-level wrappers
pass `length + 1` fuel, which is proved sufficient (each loop iteration
consumes at least one byte), so the fuel-exhausted branches are unreachable.
-/

deriving instance DecidableEq for Except

namespace Sup2Srt

/-- The two `std::io::ErrorKind` values the source constructs. -/
inductive ErrorKind where
  | unexpectedEof
  | invalidData
  deriving DecidableEq, Repr

/-- A `std::io::Error`: kind plus message string. -/
structure IoError where
  kind : ErrorKind
  msg : String
  deriving DecidableEq, Repr

/-- `wire::ImageDataCode`: one decoded RLE code. -/
inductive ImageDataCode where
  | color (color : Nat) (count : Nat)
  | endOfLine
  deriving DecidableEq, Repr

/-- `wire::decode_image_data_code` (wire.rs:144-227): decode one RLE code from
the front of `buf`, returning the code and the number of bytes consumed.
The Rust `saturating_sub(1)` on `u16` is `Nat` subtraction, and
`(v1 & 0x3F) << 8 | v2` fits in `u16` for byte-valued input, so plain `Nat`
arithmetic agrees with the `u16` arithmetic of the source. -/
def decode_image_data_code (buf : List Nat) : Except IoError (ImageDataCode × Nat) :=
  match buf with
  | [] => .error ⟨.unexpectedEof, "empty buffer"⟩
  | v0 :: _ =>
    if 0 < v0 then .ok (.color v0 1, 1)
    else if buf.length < 2 then .error ⟨.invalidData, "not enough data"⟩
    else
      let v1 := buf.getD 1 0
      if 1 ≤ v1 ∧ v1 ≤ 63 then .ok (.color 0 v1, 2)
      else if v1 = 0 then .ok (.endOfLine, 2)
      else if buf.length < 3 then .error ⟨.invalidData, "not enough data"⟩
      else
        let v2 := buf.getD 2 0
        if v1 &&& 192 = 64 then
          .ok (.color 0 ((((v1 &&& 63) <<< 8) ||| v2) - 1), 3)
        else if v1 &&& 192 = 128 then .ok (.color v2 (v1 &&& 63), 3)
        else if buf.length < 4 then .error ⟨.invalidData, "not enough data"⟩
        else
          let v3 := buf.getD 3 0
          if v1 &&& 192 = 192 then
            .ok (.color v3 (((v1 &&& 63) <<< 8) ||| v2), 4)
          else .error ⟨.invalidData, "invalid rle data"⟩

/-- Loop body of the `ImageDataDecoder` iterator (wire.rs:117-142):
decode codes from the front of `buf` until it is exhausted, failing on the
first code error.  `fuel` is a structural-recursion bound; each step consumes
at least one byte, so `buf.length + 1` fuel never exhausts (proved in
`decode_image_data_go_congr` below). -/
def decode_image_data_go (fuel : Nat) (buf : List Nat) :
    Except IoError (List ImageDataCode) :=
  match fuel with
  | 0 => .error ⟨.invalidData, "unreachable: out of fuel"⟩
  | fuel + 1 =>
    if buf = [] then .ok []
    else
      match decode_image_data_code buf with
      | .error e => .error e
      | .ok (c, n) =>
        match decode_image_data_go fuel (buf.drop n) with
        | .error e => .error e
        | .ok cs => .ok (c :: cs)

/-- `wire::decode_image_data` (wire.rs:229-231), materialised as the list of
codes the iterator yields (or its first error). -/
def decode_image_data (buf : List Nat) : Except IoError (List ImageDataCode) :=
  decode_image_data_go (buf.length + 1) buf

/-! ## lib.rs: typed segments -/

/-- `CompositionState` (lib.rs:20-24). -/
inductive CompositionState where
  | normal
  | acquisitionPoint
  | epochStart
  deriving DecidableEq, Repr

/-- `LastInSequenceFlag` (lib.rs:27-31). -/
inductive LastInSequenceFlag where
  | last
  | first
  | firstAndLast
  deriving DecidableEq, Repr

/-- `Header` (lib.rs:98-103): the pts/dts pair kept from the wire header. -/
structure Header where
  pts : Nat
  dts : Nat
  deriving DecidableEq, Repr

/-- `CompositionObjectCropping` (lib.rs:43-48). -/
structure CompositionObjectCropping where
  width : Nat
  height : Nat
  horizontal_position : Nat
  vertical_position : Nat
  deriving DecidableEq, Repr

/-- `CompositionObject` (lib.rs:51-57). -/
structure CompositionObject where
  object_id : Nat
  window_id : Nat
  horizontal_position : Nat
  vertical_position : Nat
  cropping : Option CompositionObjectCropping
  deriving DecidableEq, Repr

/-- `Window` (lib.rs:60-71). -/
structure Window where
  window_id : Nat
  width : Nat
  height : Nat
  horizontal_position : Nat
  vertical_position : Nat
  deriving DecidableEq, Repr

/-- `PaletteEntry` (lib.rs:74-80).  The Rust `Default` (all fields zero) is
the `Inhabited` default. -/
structure PaletteEntry where
  entry_id : Nat
  luminance : Nat
  color_diff_red : Nat
  color_diff_blue : Nat
  transparency : Nat
  deriving DecidableEq, Repr

instance : Inhabited PaletteEntry := ⟨⟨0, 0, 0, 0, 0⟩⟩

/-- `PCS` (lib.rs:116-129). -/
structure PCS where
  header : Header
  width : Nat
  height : Nat
  composition_number : Nat
  composition_state : CompositionState
  palette_update : Bool
  palette_id : Nat
  composition_objects : List CompositionObject
  deriving DecidableEq, Repr

/-- `WDS` (lib.rs:133-136). -/
structure WDS where
  header : Header
  windows : List Window
  deriving DecidableEq, Repr

/-- `PDS` (lib.rs:140-147).  The 256-entry array is a 256-element list. -/
structure PDS where
  header : Header
  palette_id : Nat
  palette_version : Nat
  entries : List PaletteEntry
  deriving DecidableEq, Repr

/-- `ODS` (lib.rs:151-166). -/
structure ODS where
  header : Header
  object_id : Nat
  object_version : Nat
  last_in_sequence : LastInSequenceFlag
  width : Nat
  height : Nat
  data : List Nat
  deriving DecidableEq, Repr

/-- `END` (lib.rs:170-172). -/
structure END where
  header : Header
  deriving DecidableEq, Repr

/-- `Segment` (lib.rs:34-40). -/
inductive Segment where
  | pcs (s : PCS)
  | wds (s : WDS)
  | pds (s : PDS)
  | ods (s : ODS)
  | seg_end (s : END)
  deriving DecidableEq, Repr

/-- `DisplaySet` (lib.rs:175-181).  The Rust field `end` is `end_seg` here
(`end` is a Lean keyword). -/
structure DisplaySet where
  pcs : PCS
  wds : List WDS
  pds : List PDS
  ods : List ODS
  end_seg : END
  deriving DecidableEq, Repr

/-! ## lib.rs: the wire reader

`std::io::Read::read_exact` on a byte source: take exactly `n` bytes or fail
with `UnexpectedEof`.  The Rust header/field readers (`read_u8`, `read_u16`,
`read_u24`, `read_u32`, wire.rs:233-255) read big-endian fields one after
another; reading a fixed group of fields one by one fails with
`UnexpectedEof` exactly when fewer bytes remain than the group needs, so the
embedding reads each fixed-size group with one `read_exact` and then slices
the fields out of the group. -/

/-- `read_exact`: split off exactly `n` bytes or fail with `UnexpectedEof`. -/
def read_exact (n : Nat) (s : List Nat) : Except IoError (List Nat × List Nat) :=
  if s.length < n then .error ⟨.unexpectedEof, "failed to fill whole buffer"⟩
  else .ok (s.take n, s.drop n)

/-- Big-endian value of a byte list (`uNN::from_be_bytes`). -/
def be_bytes (bs : List Nat) : Nat := bs.foldl (fun a b => a * 256 + b) 0

/-- Read one `wire::CompositionObject` (wire.rs:284-300) and convert it as
`decode_segment` does (lib.rs:205-227): the four cropping fields follow
exactly when the cropped flag is `0x40`; flag `0x00` means no cropping; any
other flag value is `InvalidData`. -/
def read_composition_object (cur : List Nat) :
    Except IoError (CompositionObject × List Nat) :=
  match read_exact 8 cur with
  | .error e => .error e
  | .ok (fs, cur1) =>
    let object_id := be_bytes (fs.take 2)
    let window_id := fs.getD 2 0
    let cropped_flag := fs.getD 3 0
    let hpos := be_bytes ((fs.drop 4).take 2)
    let vpos := be_bytes ((fs.drop 6).take 2)
    if cropped_flag = 0x40 then
      match read_exact 8 cur1 with
      | .error e => .error e
      | .ok (cs, cur2) =>
        let crop_hpos := be_bytes (cs.take 2)
        let crop_vpos := be_bytes ((cs.drop 2).take 2)
        let crop_width := be_bytes ((cs.drop 4).take 2)
        let crop_height := be_bytes ((cs.drop 6).take 2)
        .ok (⟨object_id, window_id, hpos, vpos,
              some ⟨crop_width, crop_height, crop_hpos, crop_vpos⟩⟩, cur2)
    else if cropped_flag = 0x00 then
      .ok (⟨object_id, window_id, hpos, vpos, none⟩, cur1)
    else .error ⟨.invalidData, "invalid object cropped flag"⟩

/-- The `0..pcs.number_of_composition_objects` loop of `decode_segment`
(lib.rs:204-228), accumulating in order. -/
def read_composition_objects (n : Nat) (cur : List Nat)
    (acc : List CompositionObject) :
    Except IoError (List CompositionObject × List Nat) :=
  match n with
  | 0 => .ok (acc, cur)
  | n + 1 =>
    match read_composition_object cur with
    | .error e => .error e
    | .ok (o, cur1) => read_composition_objects n cur1 (acc ++ [o])

/-- The `composition_state` match of `decode_segment` (lib.rs:241-251):
`0x80` is EpochStart, `0x40` AcquisitionPoint, `0x00` Normal, anything else
`InvalidData`. -/
def parse_composition_state (raw : Nat) : Except IoError CompositionState :=
  if raw = 0x80 then .ok .epochStart
  else if raw = 0x40 then .ok .acquisitionPoint
  else if raw = 0x00 then .ok .normal
  else .error ⟨.invalidData, "invalid composition state"⟩

/-- The `palette_update_flag` match of `decode_segment` (lib.rs:230-239):
`0x80` is true, `0x00` false, anything else `InvalidData`. -/
def parse_palette_update (raw : Nat) : Except IoError Bool :=
  if raw = 0x80 then .ok true
  else if raw = 0x00 then .ok false
  else .error ⟨.invalidData, "invalid palette update flag"⟩

/-- PCS payload parsing (lib.rs:200-263).  Field group: width(2) height(2)
framerate(1) composition_number(2) composition_state(1)
palette_update_flag(1) palette_id(1) number_of_composition_objects(1).
The composition-object loop runs first, then the palette-update flag is
validated, then the composition state, as in the source. -/
def parse_pcs (hdr : Header) (payload : List Nat) : Except IoError PCS :=
  match read_exact 11 payload with
  | .error e => .error e
  | .ok (fs, cur) =>
    let width := be_bytes (fs.take 2)
    let height := be_bytes ((fs.drop 2).take 2)
    let composition_number := be_bytes ((fs.drop 5).take 2)
    let composition_state_raw := fs.getD 7 0
    let palette_update_flag := fs.getD 8 0
    let palette_id := fs.getD 9 0
    let n_objects := fs.getD 10 0
    match read_composition_objects n_objects cur [] with
    | .error e => .error e
    | .ok (objects, _) =>
      match parse_palette_update palette_update_flag with
      | .error e => .error e
      | .ok palette_update =>
        match parse_composition_state composition_state_raw with
        | .error e => .error e
        | .ok composition_state =>
          .ok ⟨hdr, width, height, composition_number, composition_state,
               palette_update, palette_id, objects⟩

/-- The window loop of `decode_segment` (lib.rs:266-276).  Wire field order:
id(1) hpos(2) vpos(2) width(2) height(2). -/
def read_windows (n : Nat) (cur : List Nat) (acc : List Window) :
    Except IoError (List Window × List Nat) :=
  match n with
  | 0 => .ok (acc, cur)
  | n + 1 =>
    match read_exact 9 cur with
    | .error e => .error e
    | .ok (fs, cur1) =>
      let w : Window :=
        ⟨fs.getD 0 0, be_bytes ((fs.drop 5).take 2), be_bytes ((fs.drop 7).take 2),
         be_bytes ((fs.drop 1).take 2), be_bytes ((fs.drop 3).take 2)⟩
      read_windows n cur1 (acc ++ [w])

/-- WDS payload parsing (lib.rs:264-281). -/
def parse_wds (hdr : Header) (payload : List Nat) : Except IoError WDS :=
  match read_exact 1 payload with
  | .error e => .error e
  | .ok (fs, cur) =>
    match read_windows (fs.getD 0 0) cur [] with
    | .error e => .error e
    | .ok (windows, _) => .ok ⟨hdr, windows⟩

/-- The palette-entry loop of `decode_segment` (lib.rs:285-294): while the
cursor is not exhausted, read one 5-byte entry (id, luminance, cr, cb,
transparency) and store it at index id of the 256-entry table.  A leftover
of 1-4 bytes makes the per-byte reads fail with `UnexpectedEof`. -/
def read_palette_entries (entries : List PaletteEntry) (cur : List Nat) :
    Except IoError (List PaletteEntry) :=
  match cur with
  | [] => .ok entries
  | i :: y :: cr :: cb :: a :: rest =>
    read_palette_entries (entries.set i ⟨i, y, cr, cb, a⟩) rest
  | _ => .error ⟨.unexpectedEof, "failed to fill whole buffer"⟩

/-- PDS payload parsing (lib.rs:282-301).  The table starts zeroed
(`std::mem::zeroed`). -/
def parse_pds (hdr : Header) (payload : List Nat) : Except IoError PDS :=
  match read_exact 2 payload with
  | .error e => .error e
  | .ok (fs, cur) =>
    match read_palette_entries (List.replicate 256 default) cur with
    | .error e => .error e
    | .ok entries => .ok ⟨hdr, fs.getD 0 0, fs.getD 1 0, entries⟩

/-- ODS payload parsing (lib.rs:302-347).  Fixed fields: object_id(2)
object_version(1) last_in_sequence_flag(1) object_data_length(3) width(2)
height(2); then `object_data_length.saturating_sub(4)` data bytes (`Nat`
subtraction); the last-in-sequence flag is validated after the data is
read, as in the source. -/
def parse_ods (hdr : Header) (payload : List Nat) : Except IoError ODS :=
  match read_exact 11 payload with
  | .error e => .error e
  | .ok (fs, cur) =>
    let object_id := be_bytes (fs.take 2)
    let object_version := fs.getD 2 0
    let flag := fs.getD 3 0
    let object_data_length := be_bytes ((fs.drop 4).take 3)
    let width := be_bytes ((fs.drop 7).take 2)
    let height := be_bytes ((fs.drop 9).take 2)
    match read_exact (object_data_length - 4) cur with
    | .error e => .error e
    | .ok (data, _) =>
      if flag = 0x80 then
        .ok ⟨hdr, object_id, object_version, .first, width, height, data⟩
      else if flag = 0x40 then
        .ok ⟨hdr, object_id, object_version, .last, width, height, data⟩
      else if flag = 0xC0 then
        .ok ⟨hdr, object_id, object_version, .firstAndLast, width, height, data⟩
      else .error ⟨.invalidData, "invalid last in sequence flag"⟩

/-- The segment-type dispatch of `decode_segment` (lib.rs:199-357): parse the
payload by segment type (PDS `0x14`, ODS `0x15`, PCS `0x16`, WDS `0x17`,
END `0x80`; anything else is `InvalidData`). -/
def parse_segment_body (segment_type : Nat) (hdr : Header) (payload : List Nat) :
    Except IoError Segment :=
  if segment_type = 0x16 then (parse_pcs hdr payload).map .pcs
  else if segment_type = 0x17 then (parse_wds hdr payload).map .wds
  else if segment_type = 0x14 then (parse_pds hdr payload).map .pds
  else if segment_type = 0x15 then (parse_ods hdr payload).map .ods
  else if segment_type = 0x80 then .ok (.seg_end ⟨hdr⟩)
  else .error ⟨.invalidData, "invalid segment type"⟩

/-- `decode_segment` (lib.rs:183-358): read the 13-byte header (magic(2)
pts(4) dts(4) type(1) size(2)), check the magic `0x5047`, read exactly
`segment_size` payload bytes, and parse the payload by segment type.
Returns the segment and the unread remainder of the stream; unused payload
bytes are discarded with the cursor. -/
def decode_segment (s : List Nat) : Except IoError (Segment × List Nat) :=
  match read_exact 13 s with
  | .error e => .error e
  | .ok (hb, s1) =>
    let magic := be_bytes (hb.take 2)
    let pts := be_bytes ((hb.drop 2).take 4)
    let dts := be_bytes ((hb.drop 6).take 4)
    let segment_type := hb.getD 10 0
    let segment_size := be_bytes (hb.drop 11)
    if magic ≠ 0x5047 then .error ⟨.invalidData, "invalid header magic value"⟩
    else
      match read_exact segment_size s1 with
      | .error e => .error e
      | .ok (payload, s2) =>
        match parse_segment_body segment_type ⟨pts, dts⟩ payload with
        | .error e => .error e
        | .ok seg => .ok (seg, s2)

/-- The segment loop of `decode_display_set` (lib.rs:375-396): accumulate
WDS/PDS/ODS segments (in order) after the leading PCS until an END closes
the set; a second PCS is `InvalidData`.  `fuel` is a structural-recursion
bound; each iteration consumes at least 13 bytes. -/
def decode_display_set_go (fuel : Nat) (pcs : PCS) (wds : List WDS)
    (pds : List PDS) (ods : List ODS) (s : List Nat) :
    Except IoError (DisplaySet × List Nat) :=
  match fuel with
  | 0 => .error ⟨.invalidData, "unreachable: out of fuel"⟩
  | fuel + 1 =>
    match decode_segment s with
    | .error e => .error e
    | .ok (seg, rest) =>
      match seg with
      | .pcs _ => .error ⟨.invalidData, "found PCS in the middle of display set"⟩
      | .wds w => decode_display_set_go fuel pcs (wds ++ [w]) pds ods rest
      | .pds p => decode_display_set_go fuel pcs wds (pds ++ [p]) ods rest
      | .ods o => decode_display_set_go fuel pcs wds pds (ods ++ [o]) rest
      | .seg_end e => .ok (⟨pcs, wds, pds, ods, e⟩, rest)

/-- `decode_display_set` (lib.rs:360-397): the first segment must be a PCS,
then the loop above runs on the remainder. -/
def decode_display_set (s : List Nat) : Except IoError (DisplaySet × List Nat) :=
  match decode_segment s with
  | .error e => .error e
  | .ok (.pcs pcs, rest) => decode_display_set_go (rest.length + 1) pcs [] [] [] rest
  | .ok (_, _) => .error ⟨.invalidData, "expected pcs as first segment in display set"⟩

/-- The loop of `decode_display_sets` (lib.rs:399-409): assemble display sets
until `decode_display_set` fails; an `UnexpectedEof` failure ends the loop
with the sets assembled so far, any other failure is returned.  `fuel` is a
structural-recursion bound; each iteration consumes at least one byte. -/
def decode_display_sets_go (fuel : Nat) (s : List Nat) :
    Except IoError (List DisplaySet) :=
  match fuel with
  | 0 => .error ⟨.invalidData, "unreachable: out of fuel"⟩
  | fuel + 1 =>
    match decode_display_set s with
    | .ok (ds, rest) =>
      match decode_display_sets_go fuel rest with
      | .error e => .error e
      | .ok sets => .ok (ds :: sets)
    | .error e => if e.kind = .unexpectedEof then .ok [] else .error e

/-- `decode_display_sets` (lib.rs:399-409). -/
def decode_display_sets (s : List Nat) : Except IoError (List DisplaySet) :=
  decode_display_sets_go (s.length + 1) s

/-! ## lib.rs: durations, colors, RLE expansion -/

/-- `std::time::Duration`: whole seconds plus a nanosecond part below 1e9. -/
structure Duration where
  secs : Nat
  nanos : Nat
  deriving DecidableEq, Repr

instance : Inhabited Duration := ⟨⟨0, 0⟩⟩

/-- `Duration::new`: carries surplus nanoseconds into the seconds. -/
def Duration.mk_new (s n : Nat) : Duration :=
  ⟨s + n / 1000000000, n % 1000000000⟩

/-- `Duration::MAX`, used by `subtitles_to_srt` (main.rs:417):
`u64::MAX` seconds plus the largest nanosecond part. -/
def Duration.max_value : Duration := ⟨18446744073709551615, 999999999⟩

/-- `clock_to_duration` (lib.rs:430-436): 90 kHz ticks to a duration.
All intermediate values fit in `u32`/`u64`, so `Nat` agrees. -/
def clock_to_duration (timestamp : Nat) : Duration :=
  let seconds := timestamp / 90000
  let remain := timestamp % 90000
  let nanos_per_tick := 1000000000 / 90000
  let nanos := remain * nanos_per_tick
  Duration.mk_new seconds nanos

/-- `ycbcr_to_rgb` (lib.rs:411-427).  The source computes in `f64` with the
constants 1.402, 0.344136, 0.714136, 1.772, clamps to [0, 255] and truncates
(`as u8`); this model computes the same expressions in exact rational
arithmetic (the inputs are 8-bit integers and the constants are decimal
literals, which ℚ represents exactly; the f64 rounding of the products is
modelled as exact).  Truncation of the clamped non-negative value is
`Rat.floor`. -/
def ycbcr_to_rgb (luminance cr cb : Nat) : Nat × Nat × Nat :=
  let y : ℚ := luminance
  let crq : ℚ := cr
  let cbq : ℚ := cb
  let r := y + (1402 / 1000) * (crq - 128)
  let g := y - (344136 / 1000000) * (cbq - 128) - (714136 / 1000000) * (crq - 128)
  let b := y + (1772 / 1000) * (cbq - 128)
  (((max 0 (min 255 r)).floor).toNat, ((max 0 (min 255 g)).floor).toNat,
   ((max 0 (min 255 b)).floor).toNat)

/-- `PaletteEntry::to_rgba` (lib.rs:87-94): a fully transparent entry is
zeroed RGBA, otherwise YCbCr conversion with the transparency as alpha. -/
def PaletteEntry.to_rgba (e : PaletteEntry) : Nat × Nat × Nat × Nat :=
  if e.transparency = 0 then (0, 0, 0, 0)
  else
    let (r, g, b) := ycbcr_to_rgb e.luminance e.color_diff_red e.color_diff_blue
    (r, g, b, e.transparency)

/-- The pixel expansion inside `decode_rle_data` (lib.rs:443-448): a color
code contributes `count` copies of its color, an end-of-line marker
contributes nothing. -/
def expand_codes (codes : List ImageDataCode) : List Nat :=
  codes.foldl
    (fun acc c =>
      match c with
      | .color color count => acc ++ List.replicate count color
      | .endOfLine => acc)
    []

/-- `decode_rle_data` (lib.rs:440-456): expand all codes and require exactly
`width * height` pixels.  `width as usize * height as usize` cannot overflow,
so `Nat` multiplication agrees. -/
def decode_rle_data (data : List Nat) (width height : Nat) :
    Except IoError (List Nat) :=
  match decode_image_data data with
  | .error e => .error e
  | .ok codes =>
    let pixels := expand_codes codes
    if pixels.length ≠ width * height then
      .error ⟨.invalidData, "rle data expanded with invalid lenght"⟩
    else .ok pixels

/-! ## main.rs: subtitle extraction -/

/-- `TimeRange` (main.rs:32-36).  The Rust field `end` is `ending` here
(`end` is a Lean keyword). -/
structure TimeRange where
  begin : Duration
  ending : Duration
  deriving DecidableEq, Repr

instance : Inhabited TimeRange := ⟨⟨default, default⟩⟩

/-- `Bitmap` (main.rs:44-50): width, height and flattened RGBA bytes.
Rust `Default` is the zero bitmap. -/
structure Bitmap where
  width : Nat
  height : Nat
  pixels : List Nat
  deriving DecidableEq, Repr

instance : Inhabited Bitmap := ⟨⟨0, 0, []⟩⟩

/-- `BitmapSubtitle` (main.rs:71-75). -/
structure BitmapSubtitle where
  range : TimeRange
  bitmap : Bitmap
  deriving DecidableEq, Repr

instance : Inhabited BitmapSubtitle := ⟨⟨default, default⟩⟩

/-- Errors of `subtitles_extract`: a wrapped io error with its context
string, an `eyre!` message, a failed `assert_eq!`, or an out-of-bounds
slice panic in `Bitmap::sub_image`. -/
inductive ExtractError where
  | ioError (e : IoError) (context : String)
  | message (s : String)
  | assertFailed
  | outOfBounds
  deriving DecidableEq, Repr

/-- `Bitmap::sub_image` (main.rs:53-68): row-wise copy of the requested
sub-rectangle.  The row range is `top_left_y` to
`min (top_left_y + height) self.height` (saturating add is `Nat` add); a
row slice reaching past the pixel buffer is the Rust slice-index panic,
modelled as the `outOfBounds` error. -/
def Bitmap.sub_image (self : Bitmap) (top_left_x top_left_y width height : Nat) :
    Except ExtractError Bitmap :=
  let ys := List.range' top_left_y (min (top_left_y + height) self.height - top_left_y)
  match ys.foldlM
      (fun acc y =>
        let begin_offset := y * self.width * 4 + top_left_x * 4
        let end_offset := begin_offset + width * 4
        if end_offset ≤ self.pixels.length then
          Except.ok (acc ++ ((self.pixels.drop begin_offset).take (width * 4)))
        else Except.error ExtractError.outOfBounds)
      [] with
  | .error e => .error e
  | .ok output_pixels => .ok ⟨width, height, output_pixels⟩

/-- The `Object` accumulator of `subtitles_extract` (main.rs:123-129). -/
structure Obj where
  width : Nat
  height : Nat
  finished : Bool
  data : List Nat
  bitmap : Bitmap
  deriving DecidableEq, Repr

/-- Association-list model of the `HashMap`s of `subtitles_extract`
(main.rs:160-161); only point lookup and insert-or-replace are used by the
source, which this list with unique keys provides. -/
def al_lookup {α : Type} : List (Nat × α) → Nat → Option α
  | [], _ => none
  | (k', v') :: rest, k => if k' = k then some v' else al_lookup rest k

/-- Insert-or-replace for the association-list map. -/
def al_insert {α : Type} : List (Nat × α) → Nat → α → List (Nat × α)
  | [], k, v => [(k, v)]
  | (k', v') :: rest, k, v =>
    if k' = k then (k, v) :: rest else (k', v') :: al_insert rest k v

/-- `bitmap_from_object_and_palette` (main.rs:131-144): RLE-decode the
accumulated object data and map every palette index to its RGBA bytes. -/
def bitmap_from_object_and_palette (object : Obj) (palette : PDS) :
    Except ExtractError Bitmap :=
  match decode_rle_data object.data object.width object.height with
  | .error e => .error (.ioError e "decoding ODS rle data")
  | .ok pixels_indexed =>
    .ok ⟨object.width, object.height,
         pixels_indexed.flatMap
           (fun idx =>
             let (r, g, b, a) := (palette.entries.getD idx default).to_rgba
             [r, g, b, a])⟩

/-- The body of the `for ods in ds.ods` loop (main.rs:199-231):
`objects.entry(id).or_insert(fresh)` followed by the dispatch on the
last-in-sequence flag.  A fresh accumulator carries the fragment's declared
width/height, an empty buffer and the default bitmap. -/
def ods_step (palette : PDS) (objects : List (Nat × Obj)) (ods : ODS) :
    Except ExtractError (List (Nat × Obj)) :=
  let obj := (al_lookup objects ods.object_id).getD
    ⟨ods.width, ods.height, false, [], default⟩
  match ods.last_in_sequence with
  | .firstAndLast =>
    let obj1 : Obj := { obj with finished := true, data := ods.data }
    match bitmap_from_object_and_palette obj1 palette with
    | .error e => .error e
    | .ok bm => .ok (al_insert objects ods.object_id { obj1 with bitmap := bm })
  | .first =>
    .ok (al_insert objects ods.object_id { obj with finished := false, data := ods.data })
  | .last =>
    if obj.finished then .error (.message "invalid ods segment")
    else
      let obj1 : Obj := { obj with finished := true, data := obj.data ++ ods.data }
      match bitmap_from_object_and_palette obj1 palette with
      | .error e => .error e
      | .ok bm => .ok (al_insert objects ods.object_id { obj1 with bitmap := bm })

/-- The body of the `for comp in ds.pcs.composition_objects` loop
(main.rs:234-271): an unknown or unfinished object id is skipped with a
warning; otherwise the (possibly cropped) bitmap is appended as a new
subtitle opening at `current_time`, and its index is recorded in
`previous_subtitles`. -/
def comp_step (objects : List (Nat × Obj)) (current_time : Duration)
    (acc : List BitmapSubtitle × List Nat) (comp : CompositionObject) :
    Except ExtractError (List BitmapSubtitle × List Nat) :=
  match al_lookup objects comp.object_id with
  | none => .ok acc
  | some object =>
    if object.finished = false then .ok acc
    else
      let bitmapE :=
        match comp.cropping with
        | some cropping =>
          object.bitmap.sub_image cropping.horizontal_position
            cropping.vertical_position cropping.width cropping.height
        | none => .ok object.bitmap
      match bitmapE with
      | .error e => .error e
      | .ok bitmap =>
        .ok (acc.1 ++ [⟨⟨current_time, default⟩, bitmap⟩], acc.2 ++ [acc.1.length])

/-- Set the end of a subtitle record (the `subtitles[idx].range.end = t`
assignment, main.rs:173). -/
def set_ending (s : BitmapSubtitle) (t : Duration) : BitmapSubtitle :=
  { s with range := ⟨s.range.begin, t⟩ }

/-- The `previous_subtitles.drain(..)` loop (main.rs:172-174): set the end of
every subtitle opened by the previous display set to `t`.  Indices are always
in range when reached (they were pushed as positions into `subtitles`);
`List.set` at an in-range index is exactly the Rust assignment. -/
def patch_ends (subtitles : List BitmapSubtitle) (previous : List Nat)
    (t : Duration) : List BitmapSubtitle :=
  previous.foldl (fun subs idx => subs.set idx (set_ending (subs.getD idx default) t))
    subtitles

/-- The epoch-scoped mutable state of `subtitles_extract`
(main.rs:159-165). -/
structure ExtractState where
  current_epoch : Nat
  objects : List (Nat × Obj)
  palettes : List (Nat × PDS)
  subtitles : List BitmapSubtitle
  previous_subtitles : List Nat
  deriving DecidableEq, Repr

/-- The `composition_state` match of the display-set loop (main.rs:176-185):
`EpochStart` advances the epoch counter and clears the object and palette
maps; the other two states keep them. -/
def epoch_transition (st : ExtractState) (state : CompositionState) :
    Nat × List (Nat × Obj) × List (Nat × PDS) :=
  match state with
  | .epochStart => (st.current_epoch + 1, [], [])
  | .normal => (st.current_epoch, st.objects, st.palettes)
  | .acquisitionPoint => (st.current_epoch, st.objects, st.palettes)

/-- The body of the `for ds in display_sets` loop (main.rs:167-272):
assert the constant display dimensions, close the previous set's subtitles
at this set's timestamp, clear the epoch maps on `EpochStart`, register the
set's palettes, resolve the active palette (unknown id is fatal), run the
ODS accumulation and then realize the composition objects. -/
def display_set_step (display_width display_height : Nat) (st : ExtractState)
    (ds : DisplaySet) : Except ExtractError ExtractState :=
  if ds.pcs.width ≠ display_width ∨ ds.pcs.height ≠ display_height then
    .error .assertFailed
  else
    let current_time := clock_to_duration ds.pcs.header.pts
    let subtitles := patch_ends st.subtitles st.previous_subtitles current_time
    let epoch_cleared := epoch_transition st ds.pcs.composition_state
    let palettes := ds.pds.foldl (fun m pds => al_insert m pds.palette_id pds)
      epoch_cleared.2.2
    match al_lookup palettes ds.pcs.palette_id with
    | none => .error (.message "PCS referenced invalid palette")
    | some palette =>
      match ds.ods.foldlM (ods_step palette) epoch_cleared.2.1 with
      | .error e => .error e
      | .ok objects =>
        match ds.pcs.composition_objects.foldlM (comp_step objects current_time)
            (subtitles, []) with
        | .error e => .error e
        | .ok (subtitles1, previous) =>
          .ok ⟨epoch_cleared.1, objects, palettes, subtitles1, previous⟩

/-- The display-set processing stage of `subtitles_extract`
(main.rs:147-274), taking the already-decoded display sets: an empty
sequence yields no subtitles; a first set that does not start an epoch is
fatal; otherwise the per-set step above is folded over all sets (the first
set included) and the accumulated subtitles are returned. -/
def subtitles_process (display_sets : List DisplaySet) :
    Except ExtractError (List BitmapSubtitle) :=
  match display_sets with
  | [] => .ok []
  | ds0 :: _ =>
    if ds0.pcs.composition_state ≠ CompositionState.epochStart then
      .error (.message "display set 0 does not start an epoch")
    else
      match display_sets.foldlM
          (display_set_step ds0.pcs.width ds0.pcs.height) ⟨0, [], [], [], []⟩ with
      | .error e => .error e
      | .ok st => .ok st.subtitles

/-- `subtitles_extract` (main.rs:122-275): decode the display sets from the
raw bytes, then run the processing stage. -/
def subtitles_extract (pgs : List Nat) : Except ExtractError (List BitmapSubtitle) :=
  match decode_display_sets pgs with
  | .error e => .error (.ioError e "parsing pgs")
  | .ok sets => subtitles_process sets

/-! ## Concrete display sets used to instantiate the theorems

A 1×1 display, palette id 0 whose 256 entries are all zero (hence fully
transparent), and 1×1 objects whose single RLE code `[c]` (a nonzero byte)
expands to exactly one pixel of color `c`. -/

/-- A PCS for the 1×1 display. -/
def ex_pcs (pts : Nat) (state : CompositionState)
    (comps : List CompositionObject) : PCS :=
  ⟨⟨pts, 0⟩, 1, 1, 0, state, false, 0, comps⟩

/-- The all-zero palette with id 0. -/
def ex_palette : PDS := ⟨⟨0, 0⟩, 0, 0, List.replicate 256 default⟩

/-- An uncropped composition object placing object `oid` at the origin. -/
def ex_comp (oid : Nat) : CompositionObject := ⟨oid, 0, 0, 0, none⟩

/-- A 1×1 object fragment with the given flag and RLE payload. -/
def ex_ods (oid : Nat) (flag : LastInSequenceFlag) (data : List Nat) : ODS :=
  ⟨⟨0, 0⟩, oid, 0, flag, 1, 1, data⟩

/-- The 1×1 all-transparent decoded bitmap. -/
def ex_bitmap : Bitmap := ⟨1, 1, [0, 0, 0, 0]⟩

/-- Display set at t = 0 s: EpochStart, defines the palette and object 1,
and places object 1 (opens subtitle X). -/
def ex_set0 : DisplaySet :=
  ⟨ex_pcs 0 .epochStart [ex_comp 1], [], [ex_palette],
   [ex_ods 1 .firstAndLast [1]], ⟨⟨0, 0⟩⟩⟩

/-- Display set at t = 5 s (450000 ticks): Normal, defines object 2 and
places it (opens subtitle Y, closing X). -/
def ex_set1 : DisplaySet :=
  ⟨ex_pcs 450000 .normal [ex_comp 2], [], [], [ex_ods 2 .firstAndLast [2]], ⟨⟨0, 0⟩⟩⟩

/-- Display set at t = 10 s (900000 ticks): Normal, no compositions
(closes Y). -/
def ex_set2 : DisplaySet :=
  ⟨ex_pcs 900000 .normal [], [], [], [], ⟨⟨0, 0⟩⟩⟩

/-- A display set at t = 1 s (90000 ticks) that opens one subtitle; used as
the final (and only) set of an input. -/
def ex_set_late : DisplaySet :=
  ⟨ex_pcs 90000 .epochStart [ex_comp 1], [], [ex_palette],
   [ex_ods 1 .firstAndLast [1]], ⟨⟨0, 0⟩⟩⟩

/-- A display set whose composition state is Normal, not EpochStart. -/
def ex_set_normal : DisplaySet :=
  ⟨ex_pcs 0 .normal [], [], [], [], ⟨⟨0, 0⟩⟩⟩

/-- An extraction state left over from a previous epoch: it knows palette 0
and a finished object 7. -/
def ex_state_stale : ExtractState :=
  ⟨1, [(7, ⟨1, 1, true, [1], ex_bitmap⟩)], [(0, ex_palette)], [], []⟩

/-! ## Theorems -/

/-- C1: `decode_image_data_code` follows the four-width RLE grammar exactly:
a nonzero first byte is one pixel of that color (length 1); `0, v1` with
`1 ≤ v1 ≤ 63` is `v1` pixels of color 0 (length 2); `0, 0` is an
end-of-line marker (length 2); `0, v1` with top bits `01` is
`((v1 & 0x3F) << 8 | v2) - 1` pixels of color 0 (length 3, the subtraction
saturating at 0); top bits `10` is `v1 & 0x3F` pixels of color `v2`
(length 3); top bits `11` is `(v1 & 0x3F) << 8 | v2` pixels of color `v3`
(length 4); a buffer shorter than the code's declared length is a decode
failure (the top-bit patterns `01/10/11` cover every `v1 ≥ 64`, so no
further pattern exists). -/
theorem claim_C1 (buf : List Nat) (hbytes : ∀ b ∈ buf, b ≤ 255) :
    (buf = [] →
      decode_image_data_code buf = .error ⟨.unexpectedEof, "empty buffer"⟩) ∧
    (∀ v0 rest, buf = v0 :: rest → 0 < v0 →
      decode_image_data_code buf = .ok (.color v0 1, 1)) ∧
    (buf = [0] →
      decode_image_data_code buf = .error ⟨.invalidData, "not enough data"⟩) ∧
    (∀ v1 rest, buf = 0 :: v1 :: rest → 1 ≤ v1 → v1 ≤ 63 →
      decode_image_data_code buf = .ok (.color 0 v1, 2)) ∧
    (∀ rest, buf = 0 :: 0 :: rest →
      decode_image_data_code buf = .ok (.endOfLine, 2)) ∧
    (∀ v1, buf = [0, v1] → 64 ≤ v1 →
      decode_image_data_code buf = .error ⟨.invalidData, "not enough data"⟩) ∧
    (∀ v1 v2 rest, buf = 0 :: v1 :: v2 :: rest → v1 &&& 192 = 64 →
      decode_image_data_code buf =
        .ok (.color 0 ((((v1 &&& 63) <<< 8) ||| v2) - 1), 3)) ∧
    (∀ v1 v2 rest, buf = 0 :: v1 :: v2 :: rest → v1 &&& 192 = 128 →
      decode_image_data_code buf = .ok (.color v2 (v1 &&& 63), 3)) ∧
    (∀ v1 v2, buf = [0, v1, v2] → v1 &&& 192 = 192 →
      decode_image_data_code buf = .error ⟨.invalidData, "not enough data"⟩) ∧
    (∀ v1 v2 v3 rest, buf = 0 :: v1 :: v2 :: v3 :: rest → v1 &&& 192 = 192 →
      decode_image_data_code buf =
        .ok (.color v3 (((v1 &&& 63) <<< 8) ||| v2), 4)) := by
  refine ⟨?_, ?_, ?_, ?_, ?_, ?_, ?_, ?_, ?_, ?_⟩
  · rintro rfl; rfl
  · rintro v0 rest rfl h0
    simp [decode_image_data_code, h0]
  · rintro rfl; rfl
  · rintro v1 rest rfl h1 h63
    have hne : ¬ (0 :: v1 :: rest).length < 2 := by simp
    simp [decode_image_data_code, hne, h1, h63]
  · rintro rest rfl
    simp [decode_image_data_code]
  · rintro v1 rfl h64
    have h1 : ¬(1 ≤ v1 ∧ v1 ≤ 63) := by omega
    have h0 : v1 ≠ 0 := by omega
    simp [decode_image_data_code, h1, h0]
  · rintro v1 v2 rest rfl htop
    have hge : 64 ≤ v1 := htop ▸ Nat.and_le_left
    have h1 : ¬(1 ≤ v1 ∧ v1 ≤ 63) := by omega
    have h0 : v1 ≠ 0 := by omega
    have hl2 : ¬ (0 :: v1 :: v2 :: rest).length < 2 := by simp
    have hl3 : ¬ (0 :: v1 :: v2 :: rest).length < 3 := by simp
    simp [decode_image_data_code, h1, h0, hl2, hl3, htop]
    split_ifs <;> first | rfl | omega
  · rintro v1 v2 rest rfl htop
    have hge : 128 ≤ v1 := htop ▸ Nat.and_le_left
    have h1 : ¬(1 ≤ v1 ∧ v1 ≤ 63) := by omega
    have h0 : v1 ≠ 0 := by omega
    have hl2 : ¬ (0 :: v1 :: v2 :: rest).length < 2 := by simp
    have hl3 : ¬ (0 :: v1 :: v2 :: rest).length < 3 := by simp
    simp [decode_image_data_code, h1, h0, hl2, hl3, htop]
    split_ifs <;> first | rfl | omega
  · rintro v1 v2 rfl htop
    have hge : 192 ≤ v1 := htop ▸ Nat.and_le_left
    have h1 : ¬(1 ≤ v1 ∧ v1 ≤ 63) := by omega
    have h0 : v1 ≠ 0 := by omega
    simp [decode_image_data_code, h1, h0, htop]
  · rintro v1 v2 v3 rest rfl htop
    have hge : 192 ≤ v1 := htop ▸ Nat.and_le_left
    have h1 : ¬(1 ≤ v1 ∧ v1 ≤ 63) := by omega
    have h0 : v1 ≠ 0 := by omega
    have hl3 : ¬ (0 :: v1 :: v2 :: v3 :: rest).length < 3 := by simp
    have hl4 : ¬ (0 :: v1 :: v2 :: v3 :: rest).length < 4 := by simp
    simp [decode_image_data_code, h1, h0, hl3, hl4, htop]
    split_ifs <;> first | rfl | omega

/-- Witness for C1 at the spec's own boundary case `0x00 0x45 0x09`
(`v1 = 0x45`, top bits `01`). -/
theorem claim_C1_witness :
    (∀ b ∈ ([0, 0x45, 0x09] : List Nat), b ≤ 255) ∧
    decode_image_data_code [0, 0x45, 0x09] =
      .ok (.color 0 ((((0x45 &&& 63) <<< 8) ||| 0x09) - 1), 3) :=
  ⟨by decide,
   (claim_C1 [0, 0x45, 0x09] (by decide)).2.2.2.2.2.2.1 0x45 0x09 [] rfl (by decide)⟩

/-- C5: `decode_rle_data` succeeds with the expanded pixel vector exactly
when expanding all RLE codes of the buffer yields `width * height` pixels;
any other pixel count is the length-mismatch `InvalidData` error, and a
code-level grammar violation is propagated as the decode error. -/
theorem claim_C5 (data : List Nat) (width height : Nat) :
    (∀ codes, decode_image_data data = .ok codes →
      (decode_rle_data data width height = .ok (expand_codes codes) ↔
        (expand_codes codes).length = width * height) ∧
      ((expand_codes codes).length ≠ width * height →
        decode_rle_data data width height =
          .error ⟨.invalidData, "rle data expanded with invalid lenght"⟩)) ∧
    (∀ e, decode_image_data data = .error e →
      decode_rle_data data width height = .error e) := by
  constructor
  · intro codes hc
    by_cases hlen : (expand_codes codes).length = width * height <;>
      simp [decode_rle_data, hc, hlen]
  · intro e he
    simp [decode_rle_data, he]

/-- Witness for C5: the two-code buffer `[0x02, 0x00, 0x00]` (one pixel of
color 2, then an end-of-line marker) expands to exactly one pixel, so a 1×1
decode succeeds and a 1×2 decode fails. -/
theorem claim_C5_witness :
    decode_image_data [2, 0, 0] = .ok [.color 2 1, .endOfLine] ∧
    decode_rle_data [2, 0, 0] 1 1 = .ok (expand_codes [.color 2 1, .endOfLine]) ∧
    decode_rle_data [2, 0, 0] 1 2 =
      .error ⟨.invalidData, "rle data expanded with invalid lenght"⟩ :=
  ⟨by decide,
   (((claim_C5 [2, 0, 0] 1 1).1 [.color 2 1, .endOfLine] (by decide)).1).mpr (by decide),
   ((claim_C5 [2, 0, 0] 1 2).1 [.color 2 1, .endOfLine] (by decide)).2 (by decide)⟩

/-- C8: for every 32-bit tick count, `clock_to_duration` returns whole
seconds `t / 90000` and a nanosecond part `(t % 90000) * (1e9 / 90000)`
(integer arithmetic; the nanosecond part stays below 1e9, so `Duration::new`
performs no carry). -/
theorem claim_C8 (t : Nat) (hrange : t < 4294967296) :
    (clock_to_duration t).secs = t / 90000 ∧
    (clock_to_duration t).nanos = (t % 90000) * (1000000000 / 90000) := by
  have h : t % 90000 < 90000 := Nat.mod_lt _ (by norm_num)
  constructor <;> simp only [clock_to_duration, Duration.mk_new] <;> omega

/-- Witness for C8 at one second plus one tick. -/
theorem claim_C8_witness :
    90001 < 4294967296 ∧
    (clock_to_duration 90001).secs = 90001 / 90000 ∧
    (clock_to_duration 90001).nanos = (90001 % 90000) * (1000000000 / 90000) :=
  ⟨by decide, claim_C8 90001 (by decide)⟩

/-- C9: processing an empty sequence of decoded display sets succeeds with
no subtitle records, and processing any non-empty sequence whose first set
is not an EpochStart fails with an error before producing any record. -/
theorem claim_C9 :
    subtitles_process [] = .ok [] ∧
    ∀ ds0 rest, ds0.pcs.composition_state ≠ CompositionState.epochStart →
      subtitles_process (ds0 :: rest) =
        .error (.message "display set 0 does not start an epoch") := by
  refine ⟨rfl, ?_⟩
  intro ds0 rest h
  simp [subtitles_process, h]

/-- Witness for C9: a single display set in Normal state is rejected. -/
theorem claim_C9_witness :
    ex_set_normal.pcs.composition_state ≠ CompositionState.epochStart ∧
    subtitles_process [ex_set_normal] =
      .error (.message "display set 0 does not start an epoch") :=
  ⟨by decide, claim_C9.2 ex_set_normal [] (by decide)⟩

/-- On success `read_exact` consumes exactly `n` of the available bytes. -/
theorem read_exact_ok {n : Nat} {s t r : List Nat}
    (h : read_exact n s = .ok (t, r)) : n ≤ s.length ∧ r.length + n = s.length := by
  unfold read_exact at h
  split_ifs at h with hl
  simp only [Except.ok.injEq, Prod.mk.injEq] at h
  obtain ⟨rfl, rfl⟩ := h
  refine ⟨by omega, ?_⟩
  rw [List.length_drop]
  omega

/-- A successfully decoded segment consumes at least its 13 header bytes. -/
theorem decode_segment_consumes {s : List Nat} {seg : Segment} {rest : List Nat}
    (h : decode_segment s = .ok (seg, rest)) : rest.length < s.length := by
  unfold decode_segment at h
  split at h
  · cases h
  · rename_i hb s1 h13
    dsimp only at h
    split_ifs at h with hm
    cases hsz : read_exact (be_bytes (hb.drop 11)) s1 with
    | error e => rw [hsz] at h; exact absurd h (by simp)
    | ok q =>
      obtain ⟨payload, s2⟩ := q
      rw [hsz] at h
      dsimp only at h
      cases hbody : parse_segment_body (hb.getD 10 0)
          ⟨be_bytes ((hb.drop 2).take 4), be_bytes ((hb.drop 6).take 4)⟩ payload with
      | error e => rw [hbody] at h; exact absurd h (by simp)
      | ok sg =>
        rw [hbody] at h
        simp only [Except.ok.injEq, Prod.mk.injEq] at h
        obtain ⟨-, rfl⟩ := h
        have l1 := read_exact_ok h13
        have l2 := read_exact_ok hsz
        omega

/-- The display-set segment loop only ever consumes bytes. -/
theorem decode_display_set_go_consumes :
    ∀ (fuel : Nat) (pcs : PCS) (wds : List WDS) (pds : List PDS) (ods : List ODS)
      (s : List Nat) (ds : DisplaySet) (rest : List Nat),
      decode_display_set_go fuel pcs wds pds ods s = .ok (ds, rest) →
      rest.length < s.length := by
  intro fuel
  induction fuel with
  | zero => intro pcs wds pds ods s ds rest h; cases h
  | succ f ih =>
    intro pcs wds pds ods s ds rest h
    unfold decode_display_set_go at h
    cases hseg : decode_segment s with
    | error e => rw [hseg] at h; cases h
    | ok p =>
      obtain ⟨seg, rest1⟩ := p
      rw [hseg] at h
      have hc := decode_segment_consumes hseg
      cases seg with
      | pcs q => exact absurd h (by simp)
      | wds w => exact lt_trans (ih _ _ _ _ _ _ _ h) hc
      | pds w => exact lt_trans (ih _ _ _ _ _ _ _ h) hc
      | ods w => exact lt_trans (ih _ _ _ _ _ _ _ h) hc
      | seg_end w =>
        simp only [Except.ok.injEq, Prod.mk.injEq] at h
        obtain ⟨-, rfl⟩ := h
        exact hc

/-- A successfully decoded display set consumes at least one byte. -/
theorem decode_display_set_consumes {s : List Nat} {ds : DisplaySet}
    {rest : List Nat} (h : decode_display_set s = .ok (ds, rest)) :
    rest.length < s.length := by
  unfold decode_display_set at h
  split at h
  · cases h
  · rename_i pcs rest1 hseg
    have hc := decode_segment_consumes hseg
    exact lt_trans (decode_display_set_go_consumes _ _ _ _ _ _ _ _ h) hc
  · cases h

/-- The display-set stream loop does not depend on its fuel as long as the
fuel exceeds the remaining stream length (each iteration consumes at least
one byte), so the fuel-exhausted branch is unreachable. -/
theorem decode_display_sets_go_congr :
    ∀ (f1 f2 : Nat) (s : List Nat), s.length < f1 → s.length < f2 →
      decode_display_sets_go f1 s = decode_display_sets_go f2 s := by
  intro f1
  induction f1 with
  | zero => intro f2 s h1; omega
  | succ f ih =>
    intro f2 s h1 h2
    cases f2 with
    | zero => omega
    | succ g =>
      unfold decode_display_sets_go
      cases hds : decode_display_set s with
      | error e => rfl
      | ok p =>
        obtain ⟨ds, rest⟩ := p
        have hc := decode_display_set_consumes hds
        dsimp only
        rw [ih g rest (by omega) (by omega)]

/-- The loop-unrolling equation of `decode_display_sets`: one display set is
decoded and the loop continues on the remainder; an `UnexpectedEof` failure
ends the stream with the sets decoded so far, any other failure is
returned. -/
theorem decode_display_sets_eq (s : List Nat) :
    decode_display_sets s =
      match decode_display_set s with
      | .ok (ds, rest) =>
        match decode_display_sets rest with
        | .error e => .error e
        | .ok sets => .ok (ds :: sets)
      | .error e => if e.kind = .unexpectedEof then .ok [] else .error e := by
  show decode_display_sets_go (s.length + 1) s = _
  unfold decode_display_sets_go
  cases hds : decode_display_set s with
  | error e => rfl
  | ok p =>
    obtain ⟨ds, rest⟩ := p
    have hc := decode_display_set_consumes hds
    unfold decode_display_sets
    dsimp only
    rw [decode_display_sets_go_congr s.length (rest.length + 1) rest (by omega) (by omega)]

/-- C3 counterexample: the claim says a stream truncated in the middle of a
display set (here: after one byte of the first 13-byte segment header, so
mid-header) makes `decode_display_sets` return a fatal error; the code
instead swallows the `UnexpectedEof` produced anywhere inside
`decode_display_set` and returns the display sets assembled so far
(here: none). -/
theorem claim_C3_counterexample : decode_display_sets [0x50] = .ok [] := by decide

/-- C3 (amended): `decode_display_sets` returns the sets assembled so far
whenever `decode_display_set` fails with `UnexpectedEof` — whether the
stream ended cleanly at a display-set boundary or was truncated mid-set —
and returns the error itself only for failures of any other kind; on
success the loop continues on the remaining stream. -/
theorem claim_C3 (s : List Nat) :
    (∀ e, decode_display_set s = .error e →
      (e.kind = .unexpectedEof → decode_display_sets s = .ok []) ∧
      (e.kind ≠ .unexpectedEof → decode_display_sets s = .error e)) ∧
    (∀ ds rest, decode_display_set s = .ok (ds, rest) →
      decode_display_sets s =
        match decode_display_sets rest with
        | .error e => .error e
        | .ok sets => .ok (ds :: sets)) := by
  constructor
  · intro e he
    rw [decode_display_sets_eq, he]
    constructor
    · intro hk; simp [hk]
    · intro hk; simp [hk]
  · intro ds rest h
    rw [decode_display_sets_eq, h]

/-- Witness for C3 (amended) on the mid-header-truncated stream `[0x50]`:
`decode_display_set` fails with `UnexpectedEof` there, and the amended
theorem turns that into success with no sets. -/
theorem claim_C3_witness :
    decode_display_set [0x50] =
      .error ⟨.unexpectedEof, "failed to fill whole buffer"⟩ ∧
    decode_display_sets [0x50] = .ok [] :=
  ⟨by decide,
   ((claim_C3 [0x50]).1 ⟨.unexpectedEof, "failed to fill whole buffer"⟩
     (by decide)).1 (by decide)⟩

/-- Looking up in an insert-or-replace map: the inserted key yields the
inserted value; other keys are unchanged. -/
theorem al_lookup_insert {α : Type} (m : List (Nat × α)) (k j : Nat) (v : α) :
    al_lookup (al_insert m k v) j = if k = j then some v else al_lookup m j := by
  induction m with
  | nil => simp [al_insert, al_lookup]
  | cons p rest ih =>
    obtain ⟨k', v'⟩ := p
    simp only [al_insert]
    by_cases hk : k' = k
    · subst hk
      simp only [if_pos rfl, al_lookup]
      by_cases hj : k' = j <;> simp [hj]
    · rw [if_neg hk]
      simp only [al_lookup]
      by_cases hj : k' = j
      · have hkj : k ≠ j := fun hh => hk (hj.trans hh.symm)
        simp [hj, hkj]
      · simp [hj, ih]

/-- Re-inserting at the same key replaces the previous insert. -/
theorem al_insert_insert {α : Type} (m : List (Nat × α)) (k : Nat) (v w : α) :
    al_insert (al_insert m k v) k w = al_insert m k w := by
  induction m with
  | nil => simp [al_insert]
  | cons p rest ih =>
    obtain ⟨k', v'⟩ := p
    by_cases hk : k' = k
    · subst hk; simp [al_insert]
    · simp [al_insert, hk, ih]

/-- C6: within one display set's ODS loop, a First fragment with payload `A`
followed by a Last fragment with payload `B` for the same object id (same
declared width/height) is processed exactly like a single FirstAndLast
fragment with payload `A ++ B`: the resulting accumulator maps — and hence
the decoded bitmaps stored in them — coincide, including the error
behaviour of the RLE decode.  Headers and object versions may even
differ. -/
theorem claim_C6 (palette : PDS) (objects : List (Nat × Obj))
    (oid w h verA verB verC : Nat) (hdrA hdrB hdrC : Header) (A B : List Nat) :
    (match ods_step palette objects ⟨hdrA, oid, verA, .first, w, h, A⟩ with
     | .error e => .error e
     | .ok o => ods_step palette o ⟨hdrB, oid, verB, .last, w, h, B⟩) =
    ods_step palette objects ⟨hdrC, oid, verC, .firstAndLast, w, h, A ++ B⟩ := by
  cases hl : al_lookup objects oid with
  | none =>
    simp only [ods_step, hl, Option.getD_none, al_lookup_insert, if_pos rfl]
    cases hbm : bitmap_from_object_and_palette ⟨w, h, true, A ++ B, default⟩ palette with
    | error e => simp [hbm]
    | ok bm => simp [hbm, al_insert_insert]
  | some e0 =>
    obtain ⟨ow, oh, ofin, odata, obm⟩ := e0
    simp only [ods_step, hl, Option.getD_some, al_lookup_insert, if_pos rfl]
    cases hbm : bitmap_from_object_and_palette ⟨ow, oh, true, A ++ B, obm⟩ palette with
    | error e => simp [hbm]
    | ok bm => simp [hbm, al_insert_insert]

/-- C10: a Last fragment for an object id with no accumulator in the current
epoch is not rejected: a fresh accumulator is created with the fragment's
declared width/height and an empty buffer, only the fragment's own data is
appended, and the object is marked finished and decoded from those bytes
alone (with the decode's own error behaviour). -/
theorem claim_C10 (palette : PDS) (objects : List (Nat × Obj)) (ods : ODS)
    (habs : al_lookup objects ods.object_id = none)
    (hlast : ods.last_in_sequence = .last) :
    ods_step palette objects ods =
      match bitmap_from_object_and_palette
          ⟨ods.width, ods.height, true, ods.data, default⟩ palette with
      | .error e => .error e
      | .ok bm =>
        .ok (al_insert objects ods.object_id
              ⟨ods.width, ods.height, true, ods.data, bm⟩) := by
  simp only [ods_step, habs, Option.getD_none, hlast]
  simp

/-- Witness for C10: a Last-only 1×1 fragment for the unseen object id 5. -/
theorem claim_C10_witness :
    al_lookup ([] : List (Nat × Obj)) (ex_ods 5 .last [1]).object_id = none ∧
    ods_step ex_palette [] (ex_ods 5 .last [1]) =
      .ok [(5, ⟨1, 1, true, [1], ex_bitmap⟩)] :=
  ⟨rfl, by
    rw [claim_C10 ex_palette [] (ex_ods 5 .last [1]) rfl rfl]
    decide⟩

/-- `Except` bind on a success value. -/
theorem except_bind_ok {ε α β : Type} (a : α) (f : α → Except ε β) :
    ((.ok a : Except ε α) >>= f) = f a := rfl

/-- `Except` bind on an error value. -/
theorem except_bind_error {ε α β : Type} (e : ε) (f : α → Except ε β) :
    ((.error e : Except ε α) >>= f) = .error e := rfl

/-- `Except` pure. -/
theorem except_pure {ε α : Type} (a : α) : (pure a : Except ε α) = .ok a := rfl

/-- `List.set` then `getD`: the set index (when in range) yields the new
value, every other index is unchanged. -/
theorem getD_set {α : Type} (l : List α) (i j : Nat) (a d : α) :
    (l.set i a).getD j d = if i = j ∧ i < l.length then a else l.getD j d := by
  simp only [List.getD_eq_getElem?_getD, List.getElem?_set]
  by_cases hij : i = j
  · subst hij
    by_cases hlen : i < l.length
    · simp [hlen]
    · simp [hlen, List.getElem?_eq_none (Nat.le_of_not_lt hlen)]
  · simp [hij]

/-- Applying `set_ending` twice with the same time is the same as once. -/
theorem set_ending_idem (s : BitmapSubtitle) (t : Duration) :
    set_ending (set_ending s t) t = set_ending s t := rfl

/-- One step of the `patch_ends` fold. -/
theorem patch_ends_cons (subs : List BitmapSubtitle) (i : Nat) (rest : List Nat)
    (t : Duration) :
    patch_ends subs (i :: rest) t =
      patch_ends (subs.set i (set_ending (subs.getD i default) t)) rest t := rfl

/-- `patch_ends` does not change the number of subtitles. -/
theorem patch_ends_length (subs : List BitmapSubtitle) (prev : List Nat)
    (t : Duration) : (patch_ends subs prev t).length = subs.length := by
  induction prev generalizing subs with
  | nil => rfl
  | cons i rest ih => rw [patch_ends_cons, ih, List.length_set]

/-- `patch_ends` leaves every index outside `prev` untouched. -/
theorem patch_ends_getD_not_mem (t : Duration) :
    ∀ (prev : List Nat) (subs : List BitmapSubtitle) (j : Nat), j ∉ prev →
      (patch_ends subs prev t).getD j default = subs.getD j default := by
  intro prev
  induction prev with
  | nil => intro subs j _; rfl
  | cons i rest ih =>
    intro subs j hj
    rw [patch_ends_cons, ih _ _ (fun hm => hj (List.mem_cons_of_mem i hm)), getD_set]
    have hij : i ≠ j := fun hh => hj (hh ▸ List.mem_cons_self i rest)
    simp [hij]

/-- `patch_ends` sets the end of every in-range index of `prev` to `t` and
changes nothing else about that record. -/
theorem patch_ends_getD_mem (t : Duration) :
    ∀ (prev : List Nat) (subs : List BitmapSubtitle) (j : Nat), j ∈ prev →
      j < subs.length →
      (patch_ends subs prev t).getD j default = set_ending (subs.getD j default) t := by
  intro prev
  induction prev with
  | nil => intro subs j hj; cases hj
  | cons i rest ih =>
    intro subs j hj hlen
    rw [patch_ends_cons]
    by_cases hjr : j ∈ rest
    · rw [ih _ _ hjr (by rw [List.length_set]; exact hlen), getD_set]
      by_cases hij : i = j
      · subst hij; simp [hlen, set_ending_idem]
      · simp [hij]
    · have hji : j = i := by
        cases List.mem_cons.mp hj with
        | inl hh => exact hh
        | inr hh => exact absurd hh hjr
      subst hji
      rw [patch_ends_getD_not_mem t rest _ j hjr, getD_set]
      simp [hlen]

/-- A single composition-object step either skips (unknown or unfinished
object) or appends exactly one subtitle opening at `t` with the default end,
recording its index. -/
theorem comp_step_cases (objects : List (Nat × Obj)) (t : Duration)
    (subs : List BitmapSubtitle) (prev : List Nat) (comp : CompositionObject)
    (subs1 : List BitmapSubtitle) (prev1 : List Nat)
    (h : comp_step objects t (subs, prev) comp = .ok (subs1, prev1)) :
    (subs1 = subs ∧ prev1 = prev) ∨
    (∃ b, subs1 = subs ++ [b] ∧ prev1 = prev ++ [subs.length] ∧
      b.range = ⟨t, ⟨0, 0⟩⟩) := by
  unfold comp_step at h
  split at h
  · simp only [Except.ok.injEq, Prod.mk.injEq] at h
    obtain ⟨h1, h2⟩ := h
    subst h1; subst h2
    exact Or.inl ⟨rfl, rfl⟩
  · rename_i object hl
    split_ifs at h with hfin
    · simp only [Except.ok.injEq, Prod.mk.injEq] at h
      obtain ⟨h1, h2⟩ := h
      subst h1; subst h2
      exact Or.inl ⟨rfl, rfl⟩
    · cases hcrop : comp.cropping with
      | none =>
        rw [hcrop] at h
        dsimp only at h
        simp only [Except.ok.injEq, Prod.mk.injEq] at h
        obtain ⟨h1, h2⟩ := h
        subst h1; subst h2
        exact Or.inr ⟨⟨⟨t, default⟩, object.bitmap⟩, rfl, rfl, rfl⟩
      | some cropping =>
        rw [hcrop] at h
        dsimp only at h
        cases hbm : object.bitmap.sub_image cropping.horizontal_position
            cropping.vertical_position cropping.width cropping.height with
        | error e =>
          rw [hbm] at h
          dsimp only at h
          exact absurd h (by simp)
        | ok bitmap =>
          rw [hbm] at h
          dsimp only at h
          simp only [Except.ok.injEq, Prod.mk.injEq] at h
          obtain ⟨h1, h2⟩ := h
          subst h1; subst h2
          exact Or.inr ⟨⟨⟨t, default⟩, bitmap⟩, rfl, rfl, rfl⟩

/-- The composition loop appends a block of new subtitles, all opening at
`t` with the default end, and records exactly their indices (in order) in
`previous_subtitles`. -/
theorem comp_fold_spec (objects : List (Nat × Obj)) (t : Duration) :
    ∀ (comps : List CompositionObject) (subs : List BitmapSubtitle)
      (prev : List Nat) (subs1 : List BitmapSubtitle) (prev1 : List Nat),
      comps.foldlM (comp_step objects t) (subs, prev) = .ok (subs1, prev1) →
      ∃ new : List BitmapSubtitle, subs1 = subs ++ new ∧
        prev1 = prev ++ List.range' subs.length new.length ∧
        ∀ x ∈ new, x.range = ⟨t, ⟨0, 0⟩⟩ := by
  intro comps
  induction comps with
  | nil =>
    intro subs prev subs1 prev1 h
    rw [List.foldlM_nil, except_pure] at h
    simp only [Except.ok.injEq, Prod.mk.injEq] at h
    exact ⟨[], by simp [h.1.symm], by simp [h.2.symm], by simp⟩
  | cons c cs ih =>
    intro subs prev subs1 prev1 h
    rw [List.foldlM_cons] at h
    cases hstep : comp_step objects t (subs, prev) c with
    | error e => rw [hstep, except_bind_error] at h; cases h
    | ok acc1 =>
      obtain ⟨subs2, prev2⟩ := acc1
      rw [hstep, except_bind_ok] at h
      obtain ⟨new2, hs, hp, hr⟩ := ih subs2 prev2 subs1 prev1 h
      rcases comp_step_cases objects t subs prev c subs2 prev2 hstep with
        ⟨rfl, rfl⟩ | ⟨b, rfl, rfl, hb⟩
      · exact ⟨new2, hs, hp, hr⟩
      · refine ⟨b :: new2, ?_, ?_, ?_⟩
        · simp [hs]
        · rw [hp]
          have h1 : (subs ++ [b]).length = subs.length + 1 := by simp
          rw [h1, List.length_cons, List.range'_succ]
          simp
        · intro x hx
          cases List.mem_cons.mp hx with
          | inl hh => exact hh ▸ hb
          | inr hh => exact hr x hh

/-- Decomposition of a successful display-set step: the new subtitle list is
the end-patched old list followed by a block of subtitles opened at this
set's timestamp (with default end), and `previous_subtitles` holds exactly
the indices of that block. -/
theorem display_set_step_ok {dw dh : Nat} {st : ExtractState} {ds : DisplaySet}
    {st2 : ExtractState} (h : display_set_step dw dh st ds = .ok st2) :
    ∃ new : List BitmapSubtitle,
      st2.subtitles =
        patch_ends st.subtitles st.previous_subtitles
          (clock_to_duration ds.pcs.header.pts) ++ new ∧
      st2.previous_subtitles = List.range' st.subtitles.length new.length ∧
      ∀ x ∈ new, x.range = ⟨clock_to_duration ds.pcs.header.pts, ⟨0, 0⟩⟩ := by
  unfold display_set_step at h
  split_ifs at h with hassert
  dsimp only at h
  split at h
  · exact absurd h (by simp)
  · rename_i palette hpal
    split at h
    · exact absurd h (by simp)
    · rename_i objects hods
      split at h
      · exact absurd h (by simp)
      · rename_i subtitles1 previous hcomp
        simp only [Except.ok.injEq] at h
        subst h
        obtain ⟨new, hs, hp, hr⟩ :=
          comp_fold_spec objects (clock_to_duration ds.pcs.header.pts)
            ds.pcs.composition_objects _ [] subtitles1 previous hcomp
        refine ⟨new, hs, ?_, hr⟩
        rw [hp, patch_ends_length]
        simp

/-- An ODS step does not change the lookup of any other object id. -/
theorem ods_step_lookup_other {palette : PDS} {m m1 : List (Nat × Obj)}
    {ods : ODS} (h : ods_step palette m ods = .ok m1) {oid : Nat}
    (hne : oid ≠ ods.object_id) : al_lookup m1 oid = al_lookup m oid := by
  have hid : ods.object_id ≠ oid := fun hh => hne hh.symm
  unfold ods_step at h
  split at h
  · dsimp only at h
    split at h
    · exact absurd h (by simp)
    · rename_i bm hbm
      simp only [Except.ok.injEq] at h
      subst h
      rw [al_lookup_insert]
      simp [hid]
  · dsimp only at h
    simp only [Except.ok.injEq] at h
    subst h
    rw [al_lookup_insert]
    simp [hid]
  · dsimp only at h
    split_ifs at h with hfin
    split at h
    · exact absurd h (by simp)
    · rename_i bm hbm
      simp only [Except.ok.injEq] at h
      subst h
      rw [al_lookup_insert]
      simp [hid]

/-- Folding the ODS loop only creates entries for the ids it sees. -/
theorem ods_fold_lookup {palette : PDS} :
    ∀ (l : List ODS) (m m1 : List (Nat × Obj)),
      l.foldlM (ods_step palette) m = .ok m1 →
      ∀ oid, oid ∉ l.map ODS.object_id → al_lookup m1 oid = al_lookup m oid := by
  intro l
  induction l with
  | nil =>
    intro m m1 h oid _
    rw [List.foldlM_nil, except_pure] at h
    simp only [Except.ok.injEq] at h
    subst h
    rfl
  | cons o rest ih =>
    intro m m1 h oid hoid
    rw [List.foldlM_cons] at h
    cases hstep : ods_step palette m o with
    | error e => rw [hstep, except_bind_error] at h; cases h
    | ok m2 =>
      rw [hstep, except_bind_ok] at h
      simp only [List.map_cons, List.mem_cons, not_or] at hoid
      obtain ⟨hne, hrest⟩ := hoid
      rw [ih m2 m1 h oid hrest, ods_step_lookup_other hstep hne]

/-- C7: processing an EpochStart display set is independent of the epoch
state accumulated before it (the palette and object maps are cleared), the
object map produced by the set's own ODS loop knows only the object ids the
set itself defines, and a composition object whose id is not found is
skipped without emitting a subtitle.  Together: after an EpochStart set, a
composition referencing an id known only from the prior epoch is treated as
missing and produces nothing.  (The source keeps no window table at all, so
there is no window state to clear.) -/
theorem claim_C7 (dw dh : Nat) (st : ExtractState) (ds : DisplaySet)
    (hes : ds.pcs.composition_state = CompositionState.epochStart) :
    (display_set_step dw dh st ds =
      display_set_step dw dh { st with objects := [], palettes := [] } ds) ∧
    (∀ palette objects, ds.ods.foldlM (ods_step palette) [] = .ok objects →
      ∀ oid, oid ∉ ds.ods.map ODS.object_id → al_lookup objects oid = none) ∧
    (∀ objects t subs prev comp, al_lookup objects comp.object_id = none →
      comp_step objects t (subs, prev) comp = .ok (subs, prev)) := by
  refine ⟨?_, ?_, ?_⟩
  · simp only [display_set_step, epoch_transition, hes]
  · intro palette objects hfold oid hoid
    rw [ods_fold_lookup ds.ods [] objects hfold oid hoid]
    rfl
  · intro objects t subs prev comp hl
    simp [comp_step, hl]

/-- Witness for C7: an EpochStart set processed from a stale state (which
knows a finished object 7 and palette 0 from the previous epoch) behaves as
from the cleared state. -/
theorem claim_C7_witness :
    ex_set0.pcs.composition_state = CompositionState.epochStart ∧
    display_set_step 1 1 ex_state_stale ex_set0 =
      display_set_step 1 1 { ex_state_stale with objects := [], palettes := [] }
        ex_set0 :=
  ⟨rfl, (claim_C7 1 1 ex_state_stale ex_set0 rfl).1⟩

/-- Every subtitle index recorded in `previous_subtitles` after a step still
has the default (zero) end value. -/
theorem step_prev_default_ending {dw dh : Nat} {st : ExtractState}
    {ds : DisplaySet} {st2 : ExtractState}
    (h : display_set_step dw dh st ds = .ok st2) :
    ∀ j ∈ st2.previous_subtitles,
      (st2.subtitles.getD j default).range.ending = ⟨0, 0⟩ := by
  obtain ⟨new, hs, hp, hr⟩ := display_set_step_ok h
  intro j hj
  rw [hp, List.mem_range'_1] at hj
  obtain ⟨hj1, hj2⟩ := hj
  have hplen := patch_ends_length st.subtitles st.previous_subtitles
    (clock_to_duration ds.pcs.header.pts)
  have hle : (patch_ends st.subtitles st.previous_subtitles
      (clock_to_duration ds.pcs.header.pts)).length ≤ j := by omega
  have hlt : j - st.subtitles.length < new.length := by omega
  rw [hs, List.getD_eq_getElem?_getD, List.getElem?_append_right hle, hplen,
    List.getElem?_eq_getElem hlt, Option.getD_some, hr _ (List.getElem_mem hlt)]

/-- The default-end property of `previous_subtitles` is preserved along the
whole display-set fold. -/
theorem fold_prev_default_ending {dw dh : Nat} :
    ∀ (sets : List DisplaySet) (st st2 : ExtractState),
      sets.foldlM (display_set_step dw dh) st = .ok st2 →
      (∀ j ∈ st.previous_subtitles,
        (st.subtitles.getD j default).range.ending = ⟨0, 0⟩) →
      ∀ j ∈ st2.previous_subtitles,
        (st2.subtitles.getD j default).range.ending = ⟨0, 0⟩ := by
  intro sets
  induction sets with
  | nil =>
    intro st st2 h hinv
    rw [List.foldlM_nil, except_pure] at h
    simp only [Except.ok.injEq] at h
    subst h
    exact hinv
  | cons ds rest ih =>
    intro st st2 h hinv
    rw [List.foldlM_cons] at h
    cases hstep : display_set_step dw dh st ds with
    | error e => rw [hstep, except_bind_error] at h; cases h
    | ok st1 =>
      rw [hstep, except_bind_ok] at h
      exact ih st1 st2 h (step_prev_default_ending hstep)

/-- C4 (amended): the subtitles opened by the final display set — exactly
those indexed by the fold's final `previous_subtitles` — are emitted by the
processing stage with the default zero duration as their end value (never
patched, since no later set exists), not with an unbounded open sentinel. -/
theorem claim_C4 (sets : List DisplaySet) (st2 : ExtractState)
    (ds0 : DisplaySet) (tl : List DisplaySet) (hsets : sets = ds0 :: tl)
    (hes : ds0.pcs.composition_state = CompositionState.epochStart)
    (h : sets.foldlM (display_set_step ds0.pcs.width ds0.pcs.height)
      ⟨0, [], [], [], []⟩ = .ok st2) :
    subtitles_process sets = .ok st2.subtitles ∧
    ∀ j ∈ st2.previous_subtitles,
      (st2.subtitles.getD j default).range.ending = ⟨0, 0⟩ := by
  constructor
  · subst hsets
    simp [subtitles_process, hes, h]
  · exact fold_prev_default_ending sets _ st2 h (by intro j hj; cases hj)

set_option maxRecDepth 10000 in
/-- C4 counterexample: the claim says the final set's opened subtitles get
an unbounded (open sentinel) end.  For the one-set input `ex_set_late`
(presentation time 1 s) the emitted subtitle has end `⟨0, 0⟩` — the
`Duration::default()` placeholder, the least duration, strictly below its
own begin and in particular not the `Duration::MAX` sentinel the downstream
lowering uses. -/
theorem claim_C4_counterexample :
    subtitles_process [ex_set_late] = .ok [⟨⟨⟨1, 0⟩, ⟨0, 0⟩⟩, ex_bitmap⟩] ∧
    (⟨0, 0⟩ : Duration) ≠ Duration.max_value ∧
    (⟨0, 0⟩ : Duration).secs < (⟨1, 0⟩ : Duration).secs :=
  ⟨by decide, by decide, by decide⟩

set_option maxRecDepth 10000 in
/-- Witness for C4 (amended) on the one-set input `ex_set_late`. -/
theorem claim_C4_witness :
    ([ex_set_late].foldlM
        (display_set_step ex_set_late.pcs.width ex_set_late.pcs.height)
        ⟨0, [], [], [], []⟩ =
      .ok ⟨1, [(1, ⟨1, 1, true, [1], ex_bitmap⟩)], [(0, ex_palette)],
           [⟨⟨⟨1, 0⟩, ⟨0, 0⟩⟩, ex_bitmap⟩], [0]⟩) ∧
    subtitles_process [ex_set_late] = .ok [⟨⟨⟨1, 0⟩, ⟨0, 0⟩⟩, ex_bitmap⟩] ∧
    (([⟨⟨⟨1, 0⟩, ⟨0, 0⟩⟩, ex_bitmap⟩] : List BitmapSubtitle).getD 0
      default).range.ending = ⟨0, 0⟩ :=
  ⟨by decide,
   (claim_C4 [ex_set_late]
      ⟨1, [(1, ⟨1, 1, true, [1], ex_bitmap⟩)], [(0, ex_palette)],
       [⟨⟨⟨1, 0⟩, ⟨0, 0⟩⟩, ex_bitmap⟩], [0]⟩ ex_set_late [] rfl rfl (by decide)).1,
   (claim_C4 [ex_set_late]
      ⟨1, [(1, ⟨1, 1, true, [1], ex_bitmap⟩)], [(0, ex_palette)],
       [⟨⟨⟨1, 0⟩, ⟨0, 0⟩⟩, ex_bitmap⟩], [0]⟩ ex_set_late [] rfl rfl (by decide)).2
     0 (by decide)⟩

set_option maxRecDepth 10000 in
/-- C2: each display-set step closes — by setting their end to this set's
timestamp — exactly the subtitles opened by the immediately preceding set
(those indexed by `previous_subtitles`; all other existing records are
untouched), then opens one new interval at that timestamp (with default
end) per realized composition object, recording exactly the new indices;
and on the spec's example — sets at t = 0 s (open X), t = 5 s (open Y),
t = 10 s (nothing) — the records are X:[0 s, 5 s) and Y:[5 s, 10 s). -/
theorem claim_C2 :
    (∀ (dw dh : Nat) (st : ExtractState) (ds : DisplaySet) (st2 : ExtractState),
      display_set_step dw dh st ds = .ok st2 →
      ∀ t, t = clock_to_duration ds.pcs.header.pts →
      (∀ j ∈ st.previous_subtitles, j < st.subtitles.length →
        st2.subtitles.getD j default = set_ending (st.subtitles.getD j default) t) ∧
      (∀ j, j < st.subtitles.length → j ∉ st.previous_subtitles →
        st2.subtitles.getD j default = st.subtitles.getD j default) ∧
      st.subtitles.length ≤ st2.subtitles.length ∧
      st2.previous_subtitles =
        List.range' st.subtitles.length
          (st2.subtitles.length - st.subtitles.length) ∧
      ∀ j, st.subtitles.length ≤ j → j < st2.subtitles.length →
        (st2.subtitles.getD j default).range = ⟨t, ⟨0, 0⟩⟩) ∧
    subtitles_process [ex_set0, ex_set1, ex_set2] =
      .ok [⟨⟨⟨0, 0⟩, ⟨5, 0⟩⟩, ex_bitmap⟩, ⟨⟨⟨5, 0⟩, ⟨10, 0⟩⟩, ex_bitmap⟩] := by
  constructor
  · intro dw dh st ds st2 h t ht
    subst ht
    obtain ⟨new, hs, hp, hr⟩ := display_set_step_ok h
    have hplen := patch_ends_length st.subtitles st.previous_subtitles
      (clock_to_duration ds.pcs.header.pts)
    have hlen : st2.subtitles.length = st.subtitles.length + new.length := by
      rw [hs, List.length_append, hplen]
    refine ⟨?_, ?_, by omega, ?_, ?_⟩
    · intro j hj hjlen
      have hjp : j < (patch_ends st.subtitles st.previous_subtitles
          (clock_to_duration ds.pcs.header.pts)).length := by omega
      rw [hs, List.getD_eq_getElem?_getD, List.getElem?_append_left hjp,
        ← List.getD_eq_getElem?_getD]
      exact patch_ends_getD_mem _ _ _ _ hj hjlen
    · intro j hjlen hj
      have hjp : j < (patch_ends st.subtitles st.previous_subtitles
          (clock_to_duration ds.pcs.header.pts)).length := by omega
      rw [hs, List.getD_eq_getElem?_getD, List.getElem?_append_left hjp,
        ← List.getD_eq_getElem?_getD]
      exact patch_ends_getD_not_mem _ _ _ _ hj
    · rw [hp]
      congr 1
      omega
    · intro j hj1 hj2
      have hle : (patch_ends st.subtitles st.previous_subtitles
          (clock_to_duration ds.pcs.header.pts)).length ≤ j := by omega
      have hlt : j - st.subtitles.length < new.length := by omega
      rw [hs, List.getD_eq_getElem?_getD, List.getElem?_append_right hle, hplen,
        List.getElem?_eq_getElem hlt, Option.getD_some]
      exact hr _ (List.getElem_mem hlt)
  · decide

set_option maxRecDepth 10000 in
/-- Witness for C2: the first step of the example (the EpochStart set at
t = 0 opening subtitle X) records exactly the index of the one appended
subtitle. -/
theorem claim_C2_witness :
    (display_set_step 1 1 ⟨0, [], [], [], []⟩ ex_set0 =
      .ok ⟨1, [(1, ⟨1, 1, true, [1], ex_bitmap⟩)], [(0, ex_palette)],
           [⟨⟨⟨0, 0⟩, ⟨0, 0⟩⟩, ex_bitmap⟩], [0]⟩) ∧
    ([0] : List Nat) = List.range' 0 (1 - 0) :=
  ⟨by decide,
   (claim_C2.1 1 1 ⟨0, [], [], [], []⟩ ex_set0
      ⟨1, [(1, ⟨1, 1, true, [1], ex_bitmap⟩)], [(0, ex_palette)],
       [⟨⟨⟨0, 0⟩, ⟨0, 0⟩⟩, ex_bitmap⟩], [0]⟩ (by decide) _ rfl).2.2.2.1⟩

end Sup2Srt
